import Mathlib

/-!
Verification development for `src/Log.hpp` (class `CLog`), a per-thread
stream-style logger.  The C++ class keeps one `Buffer` per calling thread in
`std::map<std::thread::id, Buffer> m_Buffers`, formats appended values at
append time according to the process-wide numeric format `m_Format`, and on
`Flush` renders the calling thread's buffer (if it passes the debug/level
filter) to the console callback and, when file logging is enabled, to the
file sink, then erases the thread's entry.

The embedding below follows `src/Log.hpp` on an LP64 platform (as the repo's
Linux build): `long` is 64 bits, `sizeof(long)` is 8.  Thread ids are
modelled as `Nat`; the buffer map is an association list with distinct keys
(the `std::map` invariant).  Current wall-clock time (`time(nullptr)`) and
the `strftime` rendering of a timestamp are inputs of the operations that
read them (`now : Nat`, `fmtTime : Nat → String`).
-/

namespace CLog

/-- The numeric format mode stored in `char m_Format`: `'d'` decimal,
`'x'` hex, `'o'` octal, `'b'` binary (`CLog::SetNumFormat`,
src/Log.hpp:340-343; initial value `'d'`, src/Log.hpp:94). -/
inductive NumFormat where
  | d
  | x
  | o
  | b
deriving DecidableEq

/-- The 64-bit two's-complement bit pattern of a C `long` holding the
mathematical value `n` (LP64: `long` has 64 bits). -/
def toPattern (n : Int) : Nat := (n % (2 : Int) ^ 64).toNat

/-- The signed value of the `long` whose 64-bit pattern is `p`; `snprintf`
with `%ld` prints exactly this value. -/
def patternToInt (p : Nat) : Int :=
  if p < 2 ^ 63 then (p : Int) else (p : Int) - 2 ^ 64

/-- `FormatIntegral` builds its result with `Ret.resize(Size + 1, 0)` and
then `snprintf(&Ret[0], Size + 1, ...)` (src/Log.hpp:447-449): the
`std::string` is one longer than the printed text and `snprintf` writes its
terminating NUL into the final position, so every `snprintf`-produced piece
carries a trailing NUL character. -/
def sprintfPad : String := String.singleton (Char.ofNat 0)

/-- The `else` branch of `CLog::FormatIntegral(long, std::string)`
(src/Log.hpp:451-465): `for (char i = sizeof(long); i--;)` runs
`i = 7, 6, ..., 0` (`sizeof(long)` is 8 on LP64 — a byte count), testing
`Num & (1 << i)`, i.e. bit `i` of the two's-complement pattern `p`; digits
are appended only from the first set bit on, and an empty result becomes
`"0"`. -/
def formatBinary (p : Nat) : String :=
  let r :=
    (List.range 8).reverse.foldl
      (fun acc i =>
        let bit := p.testBit i
        let found := acc.1 || bit
        (found, if found then acc.2.push (if bit then '1' else '0') else acc.2))
      (false, "")
  if r.2 = "" then "0" else r.2

/-- `CLog::FormatIntegral(long Num, std::string Unsigned)`
(src/Log.hpp:434-468) over the 64-bit pattern `p` of `Num`.  `isSigned`
records whether the `Unsigned` argument is `"d"` (signed overload) or `"u"`
(unsigned overload); it is only consulted in decimal mode, where the format
string becomes `%ld` resp. `%lu`.  Hex uses `%lx` (lowercase, no prefix)
and octal `%lo`, both printing the pattern as an unsigned quantity. -/
def FormatIntegral (fmt : NumFormat) (isSigned : Bool) (p : Nat) : String :=
  match fmt with
  | .b => formatBinary p
  | .d => (if isSigned then toString (patternToInt p) else toString p) ++ sprintfPad
  | .x => String.mk (Nat.toDigits 16 p) ++ sprintfPad
  | .o => String.mk (Nat.toDigits 8 p) ++ sprintfPad

/-- `CLog::FormatIntegral(long Num)` (src/Log.hpp:475-478), reached from
`operator<<` for signed integrals after the `(long)val` cast
(src/Log.hpp:143). -/
def FormatIntegralS (fmt : NumFormat) (v : Int) : String :=
  FormatIntegral fmt true (toPattern v)

/-- `CLog::FormatIntegral(unsigned long Num)` (src/Log.hpp:470-473),
reached from `operator<<` for unsigned integrals after the
`(unsigned long)val` cast (src/Log.hpp:156); the value is reduced to its
64-bit pattern. -/
def FormatIntegralU (fmt : NumFormat) (v : Nat) : String :=
  FormatIntegral fmt false (v % 2 ^ 64)

/-- `struct CLog::Buffer` (src/Log.hpp:69-85). -/
structure Buffer where
  Time : Nat
  Tag : String
  Message : String
  Level : Nat
  DebugMsg : Bool
  ShowTime : Bool
deriving DecidableEq

/-- The `Buffer()` constructor (src/Log.hpp:71-77): `Level = 0`,
`DebugMsg = false`, `ShowTime = true`, `Time = time(nullptr)` (the current
time `now`); `Tag` and `Message` are default-constructed empty strings. -/
def defaultBuffer (now : Nat) : Buffer :=
  { Time := now, Tag := "", Message := "", Level := 0, DebugMsg := false, ShowTime := true }

/-- The logger's mutable state: the fields of `class CLog`
(src/Log.hpp:423-432) together with the observable effect streams.
`buffers` models `std::map<std::thread::id, Buffer> m_Buffers` as an
association list (key order; keys distinct).  `fileOpen` is the open/closed
state of `DefaultFileOut`'s `std::ofstream`.  `consoleOut` and `fileOut`
record, in order, the strings handed to the console callback
(`m_Output`) and to `IFileOut::WriteToFile`. -/
structure LogState where
  buffers : List (Nat × Buffer)
  logToFile : Bool
  logDebug : Bool
  format : NumFormat
  level : Nat
  fileOpen : Bool
  consoleOut : List String
  fileOut : List String
deriving DecidableEq

/-- Conversion of an `int` value to `uint32_t` (C++ modular conversion),
used for the initialiser `m_Level = -1` (src/Log.hpp:95) where
`m_Level : uint32_t`. -/
def uint32OfInt (i : Int) : Nat := (i % (2 : Int) ^ 32).toNat

/-- The `CLog()` constructor (src/Log.hpp:87-96): `m_LogToFile = false`,
`m_LogDebug = false`, `m_Format = 'd'`, `m_Level = -1` (stored into a
`uint32_t`); the buffer map starts empty and the default file sink's
stream starts closed. -/
def initState : LogState :=
  { buffers := [], logToFile := false, logDebug := false, format := .d,
    level := uint32OfInt (-1), fileOpen := false, consoleOut := [], fileOut := [] }

/-- `m_Buffers.find`-style lookup on the association list. -/
def lookupBuf (tid : Nat) : List (Nat × Buffer) → Option Buffer
  | [] => none
  | e :: rest => if e.1 = tid then some e.2 else lookupBuf tid rest

/-- Store `b` under key `tid`, replacing an existing entry or inserting a
new one (the write half of `m_Buffers[tid] = ...`). -/
def setBuf (tid : Nat) (b : Buffer) : List (Nat × Buffer) → List (Nat × Buffer)
  | [] => [(tid, b)]
  | e :: rest => if e.1 = tid then (e.1, b) :: rest else e :: setBuf tid b rest

/-- `m_Buffers.erase(tid)`: remove the entry with key `tid`. -/
def eraseBuf (tid : Nat) : List (Nat × Buffer) → List (Nat × Buffer)
  | [] => []
  | e :: rest => if e.1 = tid then rest else e :: eraseBuf tid rest

/-- The buffer `m_Buffers[tid]` denotes: the stored one, or a
default-constructed `Buffer` (created at time `now`) if the key is absent —
`std::map::operator[]` default-constructs missing entries. -/
def curBuf (tid now : Nat) (s : LogState) : Buffer :=
  (lookupBuf tid s.buffers).getD (defaultBuffer now)

/-- Read-modify-write of `m_Buffers[tid]` by `f` (the common shape of every
`operator<<` and per-thread setter). -/
def modifyBuf (tid now : Nat) (f : Buffer → Buffer) (s : LogState) : LogState :=
  { s with buffers := setBuf tid (f (curBuf tid now s)) s.buffers }

/-- One append-step value, the closed set accepted by the `operator<<`
overloads and `Put` (src/Log.hpp:139-211, 274-278).  `flt` carries a value
of an arbitrary type `F`; its `std::to_string` rendering is supplied
separately as `fmtF : F → String`, since floating-point text conversion is
outside the embedding. -/
inductive InsOp (F : Type) where
  | sInt (v : Int)
  | uInt (v : Nat)
  | flt (v : F)
  | bl (v : Bool)
  | str (v : String)
  | chr (v : Char)

/-- The exact string each `operator<<` overload appends for a value, under
numeric format `fmt`: signed integrals via `FormatIntegral((long)val)`
(src/Log.hpp:143), unsigned via `FormatIntegral((unsigned long)val)`
(src/Log.hpp:156), floats via `std::to_string` (src/Log.hpp:169), `bool` as
`"true"`/`"false"` (src/Log.hpp:183-186), strings verbatim
(src/Log.hpp:199) and `Put`'s single char (src/Log.hpp:277). -/
def fmtText {F : Type} (fmtF : F → String) (fmt : NumFormat) : InsOp F → String
  | .sInt v => FormatIntegralS fmt v
  | .uInt v => FormatIntegralU fmt v
  | .flt v => fmtF v
  | .bl v => if v then "true" else "false"
  | .str v => v
  | .chr c => String.singleton c

/-- One append: `m_Buffers[this_thread].Message += <formatted text>`, as in
every `operator<<` overload and `Put`. -/
def applyIns {F : Type} (fmtF : F → String) (tid now : Nat) (op : InsOp F)
    (s : LogState) : LogState :=
  modifyBuf tid now (fun b => { b with Message := b.Message ++ fmtText fmtF s.format op }) s

/-- A sequence of appends by thread `tid`, left to right. -/
def runAppends {F : Type} (fmtF : F → String) (tid now : Nat)
    (ops : List (InsOp F)) (s : LogState) : LogState :=
  ops.foldl (fun t op => applyIns fmtF tid now op t) s

/-- The concatenation, in append order, of each value's formatted text. -/
def concatTexts {F : Type} (fmtF : F → String) (fmt : NumFormat) :
    List (InsOp F) → String
  | [] => ""
  | op :: rest => fmtText fmtF fmt op ++ concatTexts fmtF fmt rest

/-- `CLog::SetTag` (src/Log.hpp:289-294): sets the tag and recomputes
`DebugMsg = (Tag == "debug")`. -/
def SetTag (tid now : Nat) (tag : String) (s : LogState) : LogState :=
  modifyBuf tid now (fun b => { b with Tag := tag, DebugMsg := tag == "debug" }) s

/-- `CLog::SetLogLevel` (src/Log.hpp:299-303); the parameter is a
`uint32_t`, so the stored value is the argument reduced mod `2^32`. -/
def SetLogLevel (tid now lvl : Nat) (s : LogState) : LogState :=
  modifyBuf tid now (fun b => { b with Level := lvl % 2 ^ 32 }) s

/-- `CLog::ShowTimestamp` (src/Log.hpp:308-312). -/
def ShowTimestamp (tid now : Nat) (vis : Bool) (s : LogState) : LogState :=
  modifyBuf tid now (fun b => { b with ShowTime := vis }) s

/-- `CLog::ShowLogLevel` (src/Log.hpp:319-322): `m_Level = Level` with a
`uint32_t` parameter.  (Note: the C++ method takes no lock.) -/
def ShowLogLevel (lvl : Nat) (s : LogState) : LogState :=
  { s with level := lvl % 2 ^ 32 }

/-- `CLog::EnableDebugLog` (src/Log.hpp:329-333). -/
def EnableDebugLog (st : Bool) (s : LogState) : LogState :=
  { s with logDebug := st }

/-- `CLog::SetNumFormat` (src/Log.hpp:340-343).  (Note: the C++ method
takes no lock.) -/
def SetNumFormat (f : NumFormat) (s : LogState) : LogState :=
  { s with format := f }

/-- The flush filter condition of `CLog::Flush` and `CLog::FlushAll`
(src/Log.hpp:233, 256):
`(m_LogDebug || (!m_LogDebug && !buf.DebugMsg)) && buf.Level <= m_Level`. -/
def passesFilter (dbg : Bool) (lvl : Nat) (b : Buffer) : Bool :=
  (dbg || (!dbg && !b.DebugMsg)) && decide (b.Level ≤ lvl)

/-- The indentation loop of `CLog::FormatMessage` (src/Log.hpp:492-493):
`for (i = 0; i < buf.Level; i++) Ret += ' '`. -/
def spacesLoop : Nat → String
  | 0 => ""
  | n + 1 => spacesLoop n ++ " "

/-- `CLog::FormatMessage` (src/Log.hpp:488-510), the default renderer:
`Level` spaces, then — when `ShowTime` — the bracketed `strftime`
(`"%F %H:%M:%S"`, i.e. `YYYY-MM-DD HH:MM:SS`) rendering of `Time`
(abstracted as `fmtTime`), then — when the tag is non-empty —
`"[ Tag ] "`, then the accumulated `Message`. -/
def FormatMessage (fmtTime : Nat → String) (b : Buffer) : String :=
  let r0 := spacesLoop b.Level
  let r1 := if b.ShowTime then r0 ++ ("[ " ++ fmtTime b.Time ++ " ] ") else r0
  let r2 := if b.Tag = "" then r1 else r1 ++ ("[ " ++ b.Tag ++ " ] ")
  r2 ++ b.Message

/-- `CLog::Flush` (src/Log.hpp:228-243): copy `m_Buffers[tid]`
(default-constructing a missing entry), render and emit it when the filter
passes (console always, file only when `m_LogToFile`), then erase the
thread's entry unconditionally. -/
def Flush (fmtTime : Nat → String) (tid now : Nat) (s : LogState) : LogState :=
  let buf := curBuf tid now s
  let s1 :=
    if passesFilter s.logDebug s.level buf then
      let msg := FormatMessage fmtTime buf
      { s with consoleOut := s.consoleOut ++ [msg],
               fileOut := if s.logToFile then s.fileOut ++ [msg] else s.fileOut }
    else s
  { s1 with buffers := eraseBuf tid s1.buffers }

/-- The iterator loop of `CLog::FlushAll` (src/Log.hpp:253-266): the
rendered messages of the entries that pass the filter, in map order. -/
def flushAllLoop (fmtTime : Nat → String) (dbg : Bool) (lvl : Nat) :
    List (Nat × Buffer) → List String
  | [] => []
  | e :: rest =>
      (if passesFilter dbg lvl e.2 then [FormatMessage fmtTime e.2] else [])
        ++ flushAllLoop fmtTime dbg lvl rest

/-- `CLog::FlushAll` (src/Log.hpp:250-267): emit every passing buffer
(console always, file only when `m_LogToFile`) and erase all entries. -/
def FlushAll (fmtTime : Nat → String) (s : LogState) : LogState :=
  let outs := flushAllLoop fmtTime s.logDebug s.level s.buffers
  { s with buffers := [],
           consoleOut := s.consoleOut ++ outs,
           fileOut := if s.logToFile then s.fileOut ++ outs else s.fileOut }

/-- `CLog::CloseLogFile` (src/Log.hpp:124-129): `m_LogToFile = false`, then
`DefaultFileOut::CloseFile` (src/Log.hpp:409-413), which closes the stream
when it is open and is a no-op otherwise; no failure outlet exists in
either method. -/
def CloseLogFile (s : LogState) : LogState :=
  { s with logToFile := false, fileOpen := false }

/-- `DefaultFileOut::OpenFile` (src/Log.hpp:398-401):
`m_Output.open(Filename, std::ios::out)`.  An `std::ofstream` with the
default exception mask never throws from `open`; failure (modelled by the
filesystem predicate `canOpen`) only sets the stream's failbit, so the call
always returns normally and the returned `Bool` is whether the stream is
now open. -/
def DefaultFileOut.OpenFile (canOpen : String → Bool) : String → Except String Bool :=
  fun path => Except.ok (canOpen path)

/-- `CLog::LogToFile` (src/Log.hpp:108-115): `CloseLogFile()`, then
`m_OutFile->OpenFile(Filename)`, then `m_LogToFile = true`.  The sink's
`OpenFile` is a virtual call that may throw (`Except.error`); a thrown
exception propagates to the caller before the flag assignment runs.  The
pair's second component is the propagated exception, if any. -/
def LogToFile (openF : String → Except String Bool) (path : String) (s : LogState) :
    LogState × Option String :=
  let s1 := CloseLogFile s
  match openF path with
  | Except.error e => (s1, some e)
  | Except.ok opened => ({ s1 with logToFile := true, fileOpen := opened }, none)

/-- The public operations of `class CLog`, one constructor per method
(src/Log.hpp:108-385). -/
inductive LogOp where
  | logToFileOp
  | closeLogFileOp
  | insSignedOp
  | insUnsignedOp
  | insFloatOp
  | insBoolOp
  | insStringOp
  | putOp
  | flushOp
  | flushAllOp
  | setTagOp
  | setLogLevelOp
  | showTimestampOp
  | showLogLevelOp
  | enableDebugLogOp
  | setNumFormatOp
  | setOutputCallbackOp
  | setFormatCallbackOp
  | setFileOutCallbackOp
  | getLockOp
deriving DecidableEq

/-- Whether the method's body contains
`std::lock_guard<std::mutex> lock(m_LogLock)`, transcribed per method from
src/Log.hpp: present in `LogToFile` (112), `CloseLogFile` (126), every
`operator<<` (142, 155, 168, 182, 198), `Flush` (230), `FlushAll` (252),
`Put` (276), `SetTag` (291), `SetLogLevel` (301), `ShowTimestamp` (310),
`EnableDebugLog` (331); absent in `ShowLogLevel` (319-322), `SetNumFormat`
(340-343), `SetOutputCallback` (352-355), `SetFormatCallback` (364-367),
`SetFileOutCallback` (374-377) and `GetLock` (382-385). -/
def acquiresLock : LogOp → Bool
  | .showLogLevelOp => false
  | .setNumFormatOp => false
  | .setOutputCallbackOp => false
  | .setFormatCallbackOp => false
  | .setFileOutCallbackOp => false
  | .getLockOp => false
  | _ => true

/-- Whether the method writes a member of `CLog` (buffer map, flags,
format, level, callbacks, file sink state); only `GetLock` (which just
returns a reference to the mutex) mutates nothing. -/
def mutatesSharedState : LogOp → Bool
  | .getLockOp => false
  | _ => true

end CLog

namespace CLog

theorem lookupBuf_setBuf_self (tid : Nat) (b : Buffer) (l : List (Nat × Buffer)) :
    lookupBuf tid (setBuf tid b l) = some b := by
  induction l with
  | nil => simp [setBuf, lookupBuf]
  | cons e rest ih =>
      by_cases h : e.1 = tid
      · simp [setBuf, lookupBuf, h]
      · simp [setBuf, lookupBuf, h, ih]

theorem lookupBuf_eq_none_iff (tid : Nat) (l : List (Nat × Buffer)) :
    lookupBuf tid l = none ↔ tid ∉ l.map Prod.fst := by
  induction l with
  | nil => simp [lookupBuf]
  | cons e rest ih =>
      by_cases h : e.1 = tid
      · simp [lookupBuf, h]
      · simp [lookupBuf, h, ih, Ne.symm h]

theorem lookupBuf_eraseBuf_self (tid : Nat) (l : List (Nat × Buffer))
    (h : (l.map Prod.fst).Nodup) :
    lookupBuf tid (eraseBuf tid l) = none := by
  induction l with
  | nil => rfl
  | cons e rest ih =>
      simp only [List.map_cons, List.nodup_cons] at h
      by_cases he : e.1 = tid
      · have : tid ∉ rest.map Prod.fst := he ▸ h.1
        simpa [eraseBuf, he] using (lookupBuf_eq_none_iff tid rest).mpr this
      · simp [eraseBuf, lookupBuf, he, ih h.2]

theorem curBuf_applyIns {F : Type} (fmtF : F → String) (tid now : Nat)
    (op : InsOp F) (s : LogState) :
    curBuf tid now (applyIns fmtF tid now op s)
      = { curBuf tid now s with
          Message := (curBuf tid now s).Message ++ fmtText fmtF s.format op } := by
  simp [applyIns, modifyBuf, curBuf, lookupBuf_setBuf_self]

theorem runAppends_preserves {F : Type} (fmtF : F → String) (tid now : Nat)
    (ops : List (InsOp F)) (s : LogState) :
    (runAppends fmtF tid now ops s).format = s.format
    ∧ (runAppends fmtF tid now ops s).level = s.level
    ∧ (runAppends fmtF tid now ops s).logDebug = s.logDebug
    ∧ (runAppends fmtF tid now ops s).logToFile = s.logToFile
    ∧ (runAppends fmtF tid now ops s).consoleOut = s.consoleOut
    ∧ (runAppends fmtF tid now ops s).fileOut = s.fileOut := by
  induction ops generalizing s with
  | nil => exact ⟨rfl, rfl, rfl, rfl, rfl, rfl⟩
  | cons op rest ih => exact ih (applyIns fmtF tid now op s)

theorem curBuf_runAppends {F : Type} (fmtF : F → String) (tid now : Nat)
    (ops : List (InsOp F)) (s : LogState) :
    curBuf tid now (runAppends fmtF tid now ops s)
      = { curBuf tid now s with
          Message := (curBuf tid now s).Message ++ concatTexts fmtF s.format ops } := by
  induction ops generalizing s with
  | nil => simp [runAppends, concatTexts, String.append_empty]
  | cons op rest ih =>
      have h1 : runAppends fmtF tid now (op :: rest) s
          = runAppends fmtF tid now rest (applyIns fmtF tid now op s) := rfl
      have h2 : (applyIns fmtF tid now op s).format = s.format := rfl
      rw [h1, ih, curBuf_applyIns, h2]
      simp [concatTexts, String.append_assoc]

theorem flush_buffers_erase (fmtTime : Nat → String) (tid now : Nat) (s : LogState) :
    (Flush fmtTime tid now s).buffers = eraseBuf tid s.buffers := by
  by_cases h : passesFilter s.logDebug s.level (curBuf tid now s) <;> simp [Flush, h]

theorem flushAllLoop_eq_filter_map (fmtTime : Nat → String) (dbg : Bool) (lvl : Nat)
    (l : List (Nat × Buffer)) :
    flushAllLoop fmtTime dbg lvl l
      = (l.filter (fun e => passesFilter dbg lvl e.2)).map
          (fun e => FormatMessage fmtTime e.2) := by
  induction l with
  | nil => rfl
  | cons e rest ih =>
      by_cases h : passesFilter dbg lvl e.2
      · simp [flushAllLoop, List.filter_cons, h, ih]
      · simp [flushAllLoop, List.filter_cons, h, ih]

theorem spacesLoop_eq (n : Nat) : spacesLoop n = String.mk (List.replicate n ' ') := by
  induction n with
  | zero => rfl
  | succ k ih =>
      rw [spacesLoop, ih]
      exact congrArg String.mk (List.replicate_succ' k ' ').symm

end CLog

namespace CLog

/-- C3: evaluating the binary formatter of `CLog::FormatIntegral`
(src/Log.hpp:451-465) at the claim's inputs: 0 renders as `"0"` and 15 as
`"1111"`, as claimed; but -1 as a signed long renders as eight ones, not as
the 64 ones of the native bit width of `long` — the loop bound
`sizeof(long)` is a byte count (8), used where a bit count was intended. -/
theorem c3_binary_eval :
    FormatIntegralS NumFormat.b 0 = "0"
    ∧ FormatIntegralS NumFormat.b 15 = "1111"
    ∧ FormatIntegralS NumFormat.b (-1) = String.mk (List.replicate 8 '1')
    ∧ FormatIntegralS NumFormat.b (-1) ≠ String.mk (List.replicate 64 '1') := by
  refine ⟨by decide, by decide, by decide, by decide⟩

/-- C4 counterexample: with the default file sink (`DefaultFileOut`,
whose `OpenFile` never throws — `std::ofstream::open` reports failure via
the failbit) and a path that cannot be opened, `CLog::LogToFile` surfaces
no error to the caller and still leaves `m_LogToFile == true`, while the
file stream is not open — refuting the claim that the flag is enabled only
on successful open. -/
theorem c4_default_sink_counterexample :
    (LogToFile (DefaultFileOut.OpenFile (fun _ => false)) "bad.log" initState).2 = none
    ∧ (LogToFile (DefaultFileOut.OpenFile (fun _ => false)) "bad.log" initState).1.logToFile = true
    ∧ (LogToFile (DefaultFileOut.OpenFile (fun _ => false)) "bad.log" initState).1.fileOpen = false :=
  ⟨rfl, rfl, rfl⟩

/-- C4 (amended): when the configured sink's `OpenFile` raises an error,
`CLog::LogToFile` propagates it synchronously to its caller and the
file-logging flag is left disabled (the preceding `CloseLogFile()` cleared
it, and the `m_LogToFile = true` assignment is never reached); the default
sink, however, never raises. -/
theorem c4_open_error_propagates (openF : String → Except String Bool)
    (path : String) (s : LogState) (e : String)
    (h : openF path = Except.error e) :
    LogToFile openF path s = (CloseLogFile s, some e)
    ∧ (CloseLogFile s).logToFile = false :=
  ⟨by simp [LogToFile, h], rfl⟩

/-- C4 witness: a sink whose `OpenFile` throws, at a concrete path and the
initial state. -/
theorem c4_open_error_propagates_witness :
    ((fun _ : String => (Except.error "open failed" : Except String Bool)) "a.log"
        = Except.error "open failed")
    ∧ (LogToFile (fun _ => Except.error "open failed") "a.log" initState
          = (CloseLogFile initState, some "open failed")
        ∧ (CloseLogFile initState).logToFile = false) :=
  ⟨rfl, c4_open_error_propagates (fun _ => Except.error "open failed") "a.log"
      initState "open failed" rfl⟩

/-- C6: `CLog::CloseLogFile` (src/Log.hpp:124-129) is idempotent — the
second call leaves the state exactly as the first did — and after each call
the file-logging flag `m_LogToFile` is `false`.  Neither `CloseLogFile` nor
`DefaultFileOut::CloseFile` (which closes only when the stream is open) has
any failure outlet, so a double close produces no error. -/
theorem c6_close_idempotent (s : LogState) :
    CloseLogFile (CloseLogFile s) = CloseLogFile s
    ∧ (CloseLogFile s).logToFile = false
    ∧ (CloseLogFile (CloseLogFile s)).logToFile = false :=
  ⟨rfl, rfl, rfl⟩

/-- C7: the default renderer `CLog::FormatMessage` (src/Log.hpp:488-510)
produces, in order: exactly `Level` space characters, then — iff
`ShowTime` — the bracketed `strftime`-formatted local time
`"[ YYYY-MM-DD HH:MM:SS ] "` (the time rendering abstracted as `fmtTime`),
then — iff the tag is non-empty — `"[ Tag ] "`, then the accumulated
message text. -/
theorem c7_render_shape (fmtTime : Nat → String) (b : Buffer) :
    FormatMessage fmtTime b
      = String.mk (List.replicate b.Level ' ')
        ++ (if b.ShowTime then "[ " ++ fmtTime b.Time ++ " ] " else "")
        ++ (if b.Tag = "" then "" else "[ " ++ b.Tag ++ " ] ")
        ++ b.Message := by
  unfold FormatMessage
  rw [spacesLoop_eq]
  cases hs : b.ShowTime <;> by_cases ht : b.Tag = "" <;>
    simp [hs, ht, String.append_empty, String.append_assoc]

/-- C8 counterexample: it is not the case that every mutating operation of
`CLog` acquires the process-wide lock: `SetNumFormat`
(src/Log.hpp:340-343) writes the process-wide `m_Format` with no
`lock_guard` in its body (so does `ShowLogLevel`, src/Log.hpp:319-322). -/
theorem c8_unlocked_mutation_exists :
    ¬ ∀ op : LogOp, mutatesSharedState op = true → acquiresLock op = true := by
  intro hAll
  exact absurd (hAll LogOp.setNumFormatOp rfl) (by decide)

/-- C8 (amended): every mutating operation of `CLog` acquires the single
process-wide lock for its duration except the five that mutate without
locking: `ShowLogLevel`, `SetNumFormat`, `SetOutputCallback`,
`SetFormatCallback` and `SetFileOutCallback`. -/
theorem c8_lock_table (op : LogOp) (h : mutatesSharedState op = true) :
    acquiresLock op
      = !(decide (op = LogOp.showLogLevelOp) || decide (op = LogOp.setNumFormatOp)
          || decide (op = LogOp.setOutputCallbackOp)
          || decide (op = LogOp.setFormatCallbackOp)
          || decide (op = LogOp.setFileOutCallbackOp)) := by
  revert h
  cases op <;> decide

/-- C8 witness: `SetNumFormat` mutates shared state, and per the table it
does not acquire the lock. -/
theorem c8_lock_table_witness :
    mutatesSharedState LogOp.setNumFormatOp = true
    ∧ acquiresLock LogOp.setNumFormatOp
        = !(decide (LogOp.setNumFormatOp = LogOp.showLogLevelOp)
            || decide (LogOp.setNumFormatOp = LogOp.setNumFormatOp)
            || decide (LogOp.setNumFormatOp = LogOp.setOutputCallbackOp)
            || decide (LogOp.setNumFormatOp = LogOp.setFormatCallbackOp)
            || decide (LogOp.setNumFormatOp = LogOp.setFileOutCallbackOp)) :=
  ⟨rfl, c8_lock_table LogOp.setNumFormatOp rfl⟩

end CLog

namespace CLog

/-- C1: for every sequence of append operations (signed integral, unsigned
integral, float, bool, string, char) performed by one thread that had no
pending buffer, followed by `Flush`, the console receives one rendered
line whose message portion — the part after the default prefix of the
fresh buffer (no indentation, timestamp shown, no tag) — is the exact
character-for-character concatenation, in append order, of each appended
value's formatted text under the numeric format in effect. -/
theorem c1_message_concat {F : Type} (fmtF : F → String) (fmtTime : Nat → String)
    (ops : List (InsOp F)) (tid now : Nat) (s : LogState)
    (h : lookupBuf tid s.buffers = none) :
    (Flush fmtTime tid now (runAppends fmtF tid now ops s)).consoleOut
      = s.consoleOut
        ++ [("[ " ++ fmtTime now ++ " ] ") ++ concatTexts fmtF s.format ops] := by
  have hcur0 : curBuf tid now s = defaultBuffer now := by
    simp [curBuf, h]
  have hbuf := curBuf_runAppends fmtF tid now ops s
  rw [hcur0] at hbuf
  obtain ⟨hf, hl, hd, ht, hc, hfo⟩ := runAppends_preserves fmtF tid now ops s
  have hpass : passesFilter (runAppends fmtF tid now ops s).logDebug
      (runAppends fmtF tid now ops s).level
      (curBuf tid now (runAppends fmtF tid now ops s)) = true := by
    rw [hbuf, hd, hl]
    cases hdb : s.logDebug <;> simp [passesFilter, defaultBuffer]
  rw [Flush]
  simp only [hpass, if_true]
  rw [hbuf, hc]
  simp [FormatMessage, defaultBuffer, spacesLoop, String.empty_append,
    String.append_assoc]

/-- C1 witness: two appends (unsigned 15 in the default decimal format,
then a string) from a fresh thread on the initial state. -/
theorem c1_message_concat_witness :
    lookupBuf 0 initState.buffers = none
    ∧ (Flush (fun _ => "2020-01-01 00:00:00") 0 7
          (runAppends (fun _ : Unit => "0.500000") 0 7
            [InsOp.uInt 15, InsOp.str " ok"] initState)).consoleOut
      = initState.consoleOut
        ++ [("[ " ++ (fun _ : Nat => "2020-01-01 00:00:00") 7 ++ " ] ")
            ++ concatTexts (fun _ : Unit => "0.500000") initState.format
                [InsOp.uInt 15, InsOp.str " ok"]] :=
  ⟨rfl, c1_message_concat (fun _ : Unit => "0.500000")
      (fun _ => "2020-01-01 00:00:00") [InsOp.uInt 15, InsOp.str " ok"] 0 7
      initState rfl⟩

/-- C2: the flush filter law.  First conjunct: the filter condition of
`CLog::Flush`/`CLog::FlushAll` equals `debugEnabled && level ≤ maxLevel`
for a debug buffer and `level ≤ maxLevel` (ignoring `debugEnabled`) for a
non-debug buffer.  Second conjunct: `Flush` emits the rendered buffer to
the console exactly when the filter passes, and to the file exactly when
the filter passes and file logging is on.  Third conjunct: `FlushAll`
renders and writes exactly the buffers that pass the filter. -/
theorem c2_filter_law :
    (∀ (dbg : Bool) (lvl : Nat) (b : Buffer),
        passesFilter dbg lvl b
          = if b.DebugMsg then dbg && decide (b.Level ≤ lvl)
            else decide (b.Level ≤ lvl))
    ∧ (∀ (fmtTime : Nat → String) (tid now : Nat) (s : LogState),
        (Flush fmtTime tid now s).consoleOut
          = s.consoleOut
            ++ (if passesFilter s.logDebug s.level (curBuf tid now s)
                then [FormatMessage fmtTime (curBuf tid now s)] else [])
        ∧ (Flush fmtTime tid now s).fileOut
          = s.fileOut
            ++ (if passesFilter s.logDebug s.level (curBuf tid now s) && s.logToFile
                then [FormatMessage fmtTime (curBuf tid now s)] else []))
    ∧ (∀ (fmtTime : Nat → String) (s : LogState),
        (FlushAll fmtTime s).consoleOut
          = s.consoleOut
            ++ (s.buffers.filter (fun e => passesFilter s.logDebug s.level e.2)).map
                (fun e => FormatMessage fmtTime e.2)
        ∧ (FlushAll fmtTime s).fileOut
          = s.fileOut
            ++ (if s.logToFile
                then (s.buffers.filter
                    (fun e => passesFilter s.logDebug s.level e.2)).map
                    (fun e => FormatMessage fmtTime e.2)
                else [])) := by
  refine ⟨?_, ?_, ?_⟩
  · intro dbg lvl b
    cases hdb : b.DebugMsg <;> cases dbg <;> simp [passesFilter, hdb]
  · intro fmtTime tid now s
    by_cases hp : passesFilter s.logDebug s.level (curBuf tid now s) <;>
      cases hltf : s.logToFile <;> simp [Flush, hp, hltf]
  · intro fmtTime s
    cases hltf : s.logToFile <;>
      simp [FlushAll, flushAllLoop_eq_filter_map, hltf]

/-- C5: whatever the state of the buffer map (keys distinct, as in
`std::map`), `CLog::Flush` removes the calling thread's entry whether or
not the message passed the filter, and a subsequent append by the same
thread starts from a fresh default-constructed buffer: the appended buffer
is the default one (created at the append's time) holding just the newly
appended text. -/
theorem c5_flush_erases {F : Type} (fmtF : F → String) (fmtTime : Nat → String)
    (op : InsOp F) (tid now now2 : Nat) (s : LogState)
    (h : (s.buffers.map Prod.fst).Nodup) :
    lookupBuf tid (Flush fmtTime tid now s).buffers = none
    ∧ curBuf tid now2 (applyIns fmtF tid now2 op (Flush fmtTime tid now s))
        = { defaultBuffer now2 with Message := fmtText fmtF s.format op } := by
  have herase : lookupBuf tid (Flush fmtTime tid now s).buffers = none := by
    rw [flush_buffers_erase]
    exact lookupBuf_eraseBuf_self tid s.buffers h
  refine ⟨herase, ?_⟩
  have hfmt : (Flush fmtTime tid now s).format = s.format := by
    by_cases hp : passesFilter s.logDebug s.level (curBuf tid now s) <;>
      simp [Flush, hp]
  have hcur : curBuf tid now2 (Flush fmtTime tid now s) = defaultBuffer now2 := by
    simp [curBuf, herase]
  rw [curBuf_applyIns, hcur, hfmt]
  simp [defaultBuffer, String.empty_append]

/-- C5 witness: a state holding one buffer for thread 3; flushing thread 3
erases it and a subsequent string append starts from a fresh default
buffer. -/
theorem c5_flush_erases_witness :
    (((({ initState with
          buffers := [(3, defaultBuffer 5)] } : LogState)).buffers.map
        Prod.fst).Nodup)
    ∧ (lookupBuf 3 (Flush (fun _ => "T") 3 6
          { initState with buffers := [(3, defaultBuffer 5)] }).buffers = none
      ∧ curBuf 3 9 (applyIns (fun _ : Unit => "?") 3 9 (InsOp.str "next")
            (Flush (fun _ => "T") 3 6
              { initState with buffers := [(3, defaultBuffer 5)] }))
          = { defaultBuffer 9 with
              Message := fmtText (fun _ : Unit => "?")
                ({ initState with buffers := [(3, defaultBuffer 5)] } : LogState).format
                (InsOp.str "next") }) :=
  ⟨by decide, c5_flush_erases (fun _ : Unit => "?") (fun _ => "T")
      (InsOp.str "next") 3 6 9 { initState with buffers := [(3, defaultBuffer 5)] }
      (by decide)⟩

/-- C9: calling `Flush` on a logger in its constructed state when the
calling thread has never appended: `m_Buffers[tid]` default-constructs a
buffer (level 0, empty tag, not debug, timestamp shown) which passes the
default filter (`m_LogDebug == false` but the buffer is not debug, and
`0 <= m_Level`), so the console sink receives exactly the timestamp
prefix followed by an empty message body, and the map entry is removed
again. -/
theorem c9_flush_fresh_thread (fmtTime : Nat → String) (tid now : Nat) :
    (Flush fmtTime tid now initState).consoleOut = ["[ " ++ fmtTime now ++ " ] "]
    ∧ (Flush fmtTime tid now initState).buffers = []
    ∧ passesFilter initState.logDebug initState.level (defaultBuffer now) = true := by
  refine ⟨?_, ?_, ?_⟩
  · simp [Flush, curBuf, initState, lookupBuf, passesFilter, defaultBuffer,
      FormatMessage, spacesLoop, String.empty_append]
  · simp [Flush, eraseBuf]
  · simp [passesFilter, defaultBuffer]

/-- C10: the constructor stores `m_Level = -1` into the `uint32_t` field,
i.e. the initial max visible level is `2^32 - 1`; hence every `uint32_t`
buffer level satisfies `level <= m_Level`, so no message is dropped by the
level comparison until a caller lowers the threshold. -/
theorem c10_initial_level_max (b : Buffer) (h : b.Level < 2 ^ 32) :
    initState.level = uint32OfInt (-1)
    ∧ uint32OfInt (-1) = 2 ^ 32 - 1
    ∧ b.Level ≤ initState.level
    ∧ decide (b.Level ≤ initState.level) = true := by
  have h32 : uint32OfInt (-1) = 2 ^ 32 - 1 := by decide
  have hlvl : initState.level = 2 ^ 32 - 1 := h32
  have hle : b.Level ≤ initState.level := by
    rw [hlvl]; omega
  exact ⟨rfl, h32, hle, by simpa using hle⟩

/-- C10 witness: a default buffer (level 0). -/
theorem c10_initial_level_max_witness :
    (defaultBuffer 0).Level < 2 ^ 32
    ∧ (initState.level = uint32OfInt (-1)
      ∧ uint32OfInt (-1) = 2 ^ 32 - 1
      ∧ (defaultBuffer 0).Level ≤ initState.level
      ∧ decide ((defaultBuffer 0).Level ≤ initState.level) = true) :=
  ⟨by decide, c10_initial_level_max (defaultBuffer 0) (by decide)⟩

end CLog
